import Mathlib

/-!
Verification of the process-execution and job-control core of the
custom_shell repository, as a shallow embedding in Lean 4.

The definitions below are translated from the C++ sources:
the job-control shell (tokenize, splitByPipe, handleRedirection,
handleBuiltins, Job, sigchldHandler, handleJobBuiltins, executePipeline,
runCommand) and the command classifier of unified_shell.cpp
(detectCommandType with its two static command tables).

OS effects (fork, pipe, dup2, open, waitpid, kill, exec) are modelled as
explicit event traces or as oracle functions supplied as parameters, so
every definition is executable and every concrete run can be evaluated.
-/

namespace CustomShell

/-! ## String utilities (tokenize, splitByPipe, std::stoi) -/

/-- The whitespace test used by istringstream extraction (std::isspace
in the default locale). -/
def isSpaceChar (c : Char) : Bool :=
  c == ' ' || c == '\t' || c == '\n' || c == '\r' || c == '\x0b' || c == '\x0c'

/-- Split a character list at every delimiter character, keeping empty
segments (the segment boundaries of repeated delimiters). -/
def splitChars (p : Char → Bool) : List Char → List (List Char)
  | [] => [[]]
  | c :: rest =>
    match splitChars p rest with
    | [] => [[]]
    | cur :: done => if p c then [] :: cur :: done else (c :: cur) :: done

/-- Source translation of tokenize: istringstream extraction yields the
maximal non-empty whitespace-separated words of the line. -/
def tokenize (line : String) : List String :=
  ((splitChars isSpaceChar line.data).map String.mk).filter (fun t => t != "")

/-- The last character of a string, as input.back() reads it.  The C++
call is only reached on non-empty input (main skips empty lines). -/
def strBack (s : String) : Char :=
  s.data.getLast?.getD (Char.ofNat 0)

/-- input.pop_back(): drop the last character. -/
def strPopBack (s : String) : String :=
  String.mk s.data.dropLast

/-- Source translation of splitByPipe: repeated getline with delimiter
pipe.  getline fails immediately at end of input, so an empty input
yields no segments and a trailing delimiter yields no trailing empty
segment. -/
def splitByPipe (input : String) : List String :=
  let parts := (splitChars (fun c => c == '|') input.data).map String.mk
  if input.data.isEmpty then []
  else if strBack input == '|' then parts.dropLast
  else parts

/-- std::stoi semantics on base 10: skip leading whitespace, consume an
optional sign, then a maximal digit run.  Returns none exactly when no
digit is found, which in the C++ source raises std::invalid_argument. -/
def stoi (s : String) : Option Int :=
  let cs := s.data.dropWhile isSpaceChar
  let signAndRest : Bool × List Char :=
    match cs with
    | '-' :: t => (true, t)
    | '+' :: t => (false, t)
    | _ => (false, cs)
  let digits := signAndRest.2.takeWhile Char.isDigit
  if digits.isEmpty then none
  else
    let n : Nat := digits.foldl (fun a c => a * 10 + (c.toNat - 48)) 0
    some (if signAndRest.1 then -(n : Int) else (n : Int))

/-! ## Job table and the SIGCHLD reaper -/

/-- Source translation of struct Job: session-unique integer id, the
recorded process identifier, the originating command line, and the
two-state running flag (a C++ bool, displayed as Running versus
Stopped-or-Done by the jobs builtin). -/
structure Job where
  id : Int
  pid : Nat
  cmdline : String
  running : Bool
deriving DecidableEq

/-- The child-state change reported by one successful waitpid call under
the flags WNOHANG, WUNTRACED and WCONTINUED.  Exactly one of the four
status predicates of the handler holds for such a status. -/
inductive ChildStatus
  | exited
  | signaled
  | stopped
  | continued
deriving DecidableEq

/-- The body of the reap loop for one reaped process identifier: every
job whose pid matches has its running flag set from the status
(exited or signaled: false; stopped: false; continued: true); every
other job is untouched. -/
def reapOne (jobs : List Job) (pid : Nat) (st : ChildStatus) : List Job :=
  jobs.map fun job =>
    if job.pid = pid then
      match st with
      | .exited => { job with running := false }
      | .signaled => { job with running := false }
      | .stopped => { job with running := false }
      | .continued => { job with running := true }
    else job

/-- Source translation of sigchldHandler: a non-blocking drain of all
pending child-state changes, applied in the order waitpid reports
them. -/
def sigchldHandler (jobs : List Job) (events : List (Nat × ChildStatus)) : List Job :=
  events.foldl (fun js e => reapOne js e.1 e.2) jobs

/-- The running flag the handler assigns to a matched job for a given
status, read off from the four branches of the handler. -/
def runningAfter : ChildStatus → Bool
  | .continued => true
  | _ => false

/-! ## The tri-state machine the specification describes (claim side) -/

/-- The tri-state of the specification for a job: Running, Stopped or
Done. -/
inductive TriState
  | Running
  | Stopped
  | Done
deriving DecidableEq

/-- The status-to-state mapping claimed by the specification:
exited-or-killed gives Done, stopped-by-signal gives Stopped,
continued gives Running. -/
def specStatusTri : ChildStatus → TriState
  | .exited => .Done
  | .signaled => .Done
  | .stopped => .Stopped
  | .continued => .Running

/-- One step of the per-job state machine claimed by the specification:
Done is terminal, every other state moves to the state named by the
incoming status. -/
def specStep (s : TriState) (st : ChildStatus) : TriState :=
  match s with
  | .Done => .Done
  | _ => specStatusTri st

/-- The claimed machine run over a sequence of reaped statuses. -/
def specRun (s : TriState) (sts : List ChildStatus) : TriState :=
  sts.foldl specStep s

/-! ## Job builtins (jobs, fg, bg) -/

/-- The single C++ exception kind the job-control core can raise:
std::invalid_argument from std::stoi on a token with no digits. -/
inductive CppExn
  | invalidArgument
deriving DecidableEq

/-- The result of a C++ call: a normal return, or an exception
propagating out of it. -/
inductive CppResult (α : Type)
  | ok (a : α)
  | thrown (e : CppExn)
deriving DecidableEq

/-- Observable system effects of the job builtins: signals sent,
blocking waits, and lines printed. -/
inductive SysEv
  | killSig (pid : Nat)
  | waitBlocking (pid : Nat)
  | printedJobLine (id : Int) (running : Bool) (cmdline : String)
  | printedNotFound (cmd : String) (jid : Int)
deriving DecidableEq

/-- The fg and bg search loop over the job table: the first job whose id
matches is acted on (fg: SIGCONT, blocking waitpid, erase; bg: SIGCONT,
mark running) and the loop returns; if no job matches the loop falls
through (none). -/
def fgbgLoop (isFg : Bool) (jid : Int) : List Job → Option (List Job × List SysEv)
  | [] => none
  | j :: rest =>
    if j.id = jid then
      if isFg then some (rest, [.killSig j.pid, .waitBlocking j.pid])
      else some ({ j with running := true } :: rest, [.killSig j.pid])
    else
      match fgbgLoop isFg jid rest with
      | some (jobs2, evs) => some (j :: jobs2, evs)
      | none => none

/-- Source translation of handleJobBuiltins.  Returns ok none when the
arguments are not a job builtin (the caller then forks), ok (some _)
when handled, and thrown when std::stoi raises on a non-numeric job
id. -/
def handleJobBuiltins (jobs : List Job) (args : List String) :
    CppResult (Option (List Job × List SysEv)) :=
  match args with
  | [] => .ok none
  | cmd :: rest =>
    if cmd == "jobs" then
      .ok (some (jobs, jobs.map (fun j => .printedJobLine j.id j.running j.cmdline)))
    else if (cmd == "fg" || cmd == "bg") && rest.length == 1 then
      match rest with
      | [a] =>
        match stoi a with
        | none => .thrown .invalidArgument
        | some jid =>
          match fgbgLoop (cmd == "fg") jid jobs with
          | some r => .ok (some r)
          | none => .ok (some (jobs, [.printedNotFound cmd jid]))
      | _ => .ok none
    else .ok none

/-- First job in the table with the given id. -/
def findFirstJob (jid : Int) : List Job → Option Job
  | [] => none
  | j :: rest => if j.id = jid then some j else findFirstJob jid rest

/-- The table with the first job of the given id removed. -/
def eraseFirstJob (jid : Int) : List Job → List Job
  | [] => []
  | j :: rest => if j.id = jid then rest else j :: eraseFirstJob jid rest

/-! ## Plain builtins -/

/-- Outcome of handleBuiltins: not a builtin (the caller goes on to the
job builtins and fork), handled in place (cd, export, history, help and
the empty argument list), or the exit builtin terminating the shell. -/
inductive BuiltinResult
  | notBuiltin
  | handled
  | exitShell
deriving DecidableEq

/-- Source translation of handleBuiltins, keeping its control flow:
which first words are recognized and which one exits the shell. -/
def handleBuiltins (args : List String) : BuiltinResult :=
  match args with
  | [] => .handled
  | a :: _ =>
    if a == "cd" || a == "export" || a == "history" || a == "help" then .handled
    else if a == "exit" || a == "$Q" then .exitShell
    else .notBuiltin

/-! ## Redirection -/

/-- The three open modes of handleRedirection. -/
inductive RedirMode
  | truncWrite
  | appendWrite
  | readMode
deriving DecidableEq

/-- The descriptor-level calls handleRedirection makes.  File
descriptors are Int because open returns -1 on failure and the source
passes that value straight to dup2 and close. -/
inductive RedirAction
  | openCall (path : String) (mode : RedirMode) (fd : Int)
  | dup2Call (fd : Int) (target : Nat)
  | closeCall (fd : Int)
deriving DecidableEq

/-- Whether a token is one of the three redirection operators. -/
def isRedirOp (t : String) : Bool :=
  t == ">" || t == ">>" || t == "<"

/-- The open flags chosen for an operator, abstracted to a mode. -/
def modeOf (t : String) : RedirMode :=
  if t == ">" then .truncWrite
  else if t == ">>" then .appendWrite
  else .readMode

/-- The stream an operator redirects: 0 (stdin) for the read operator,
1 (stdout) otherwise. -/
def dupTarget (t : String) : Nat :=
  if t == "<" then 0 else 1

/-- Source translation of handleRedirection over an open oracle
(path and mode to returned descriptor, -1 on failure).  An operator
with a following token opens that token as a path, calls dup2 and close
on whatever open returned, and erases both tokens; an operator in last
position is skipped and stays in the argument list.  Returns the final
argument list and the list of descriptor calls made. -/
def redirLoop (openFn : String → RedirMode → Int) : List String → List String × List RedirAction
  | [] => ([], [])
  | x :: rest =>
    if isRedirOp x then
      match rest with
      | [] => ([x], [])
      | y :: rest2 =>
        ((redirLoop openFn rest2).1,
         RedirAction.openCall y (modeOf x) (openFn y (modeOf x))
           :: RedirAction.dup2Call (openFn y (modeOf x)) (dupTarget x)
           :: RedirAction.closeCall (openFn y (modeOf x))
           :: (redirLoop openFn rest2).2)
    else
      (x :: (redirLoop openFn rest).1, (redirLoop openFn rest).2)

/-- Recursion principle following the structure of redirLoop. -/
def redirRec {P : List String → Prop} (h0 : P [])
    (h1 : ∀ x, isRedirOp x = true → P [x])
    (h2 : ∀ x rest, isRedirOp x = false → P rest → P (x :: rest))
    (h3 : ∀ x y rest2, isRedirOp x = true → P rest2 → P (x :: y :: rest2)) :
    ∀ l, P l
  | [] => h0
  | x :: rest =>
    if hx : isRedirOp x = true then
      match rest with
      | [] => h1 x hx
      | y :: rest2 => h3 x y rest2 hx (redirRec h0 h1 h2 h3 rest2)
    else
      h2 x rest (by simpa using hx) (redirRec h0 h1 h2 h3 rest)

/-! ## Pipeline execution: the parent trace -/

/-- The parent-side events of executePipeline: one pipe allocation per
channel (naming the two slots of the descriptor array it fills), one
fork per stage, one close per descriptor-array slot after all forks,
and one blocking wait per stage. -/
inductive PipeEv
  | pipeAlloc (readSlot writeSlot : Nat)
  | forkChild (stage : Nat)
  | closeFd (slot : Nat)
  | waitAny
deriving DecidableEq

/-- Event trace of a counted for loop: iteration i contributes f i, in
loop order. -/
def forTrace (n : Nat) (f : Nat → List PipeEv) : List PipeEv :=
  match n with
  | 0 => []
  | m + 1 => forTrace m f ++ f m

/-- Source translation of executePipeline, restricted to what the
parent process does: allocate the n - 1 pipes up front, fork one child
per stage, close every pipe descriptor, then wait n times. -/
def executePipeline (commands : List String) : List PipeEv :=
  let n := commands.length
  forTrace (n - 1) (fun i => [.pipeAlloc (2 * i) (2 * i + 1)])
    ++ forTrace n (fun i => [.forkChild i])
    ++ forTrace (2 * (n - 1)) (fun j => [.closeFd j])
    ++ forTrace n (fun _ => [.waitAny])

/-- Event class tests for the parent trace. -/
def isAllocEv : PipeEv → Bool
  | .pipeAlloc _ _ => true
  | _ => false

def isForkEv : PipeEv → Bool
  | .forkChild _ => true
  | _ => false

def isCloseEv : PipeEv → Bool
  | .closeFd _ => true
  | _ => false

def isWaitEv : PipeEv → Bool
  | .waitAny => true
  | _ => false

/-- Number of blocking waits the parent performs in a trace. -/
def countWaits (tr : List PipeEv) : Nat :=
  (tr.filter isWaitEv).length

/-! ## Pipeline and single-command children -/

/-- Diagnostics a child can print on the exec failure path: a plain
perror message, the error line naming the unresolved command, and a
call into the typo-suggestion helper for a command name. -/
inductive Diag
  | perrorMsg (msg : String)
  | errorNaming (cmd : String)
  | suggestCalled (cmd : String)
deriving DecidableEq

/-- How a child ends: the process image is replaced by a successful
execvp, or the child prints diagnostics and exits with a status code,
never returning to normal control flow. -/
inductive ChildOutcome
  | execed (argv : List String)
  | exited (code : Nat) (diags : List Diag)
deriving DecidableEq

/-- The diagnostics printed on the way to a child outcome. -/
def childDiags : ChildOutcome → List Diag
  | .execed _ => []
  | .exited _ ds => ds

/-- A run of a forked child: the descriptor calls its redirection
handling made, the argv it passed to execvp, and its outcome. -/
structure ChildRun where
  redirActions : List RedirAction
  execArgv : List String
  outcome : ChildOutcome
deriving DecidableEq

/-- Whether execvp succeeds, as an oracle on the program name; the
empty argument list gives execvp a null pointer, which fails. -/
def execResolvesArgv (execOk : String → Bool) : List String → Bool
  | [] => false
  | prog :: _ => execOk prog

/-- Source translation of the child branch of executePipeline for one
stage (pipe wiring aside): tokenize the stage text, run redirection,
exec; on exec failure print perror with the fixed text and exit 1. -/
def pipelineChild (openFn : String → RedirMode → Int) (execOk : String → Bool)
    (cmd : String) : ChildRun :=
  let r := redirLoop openFn (tokenize cmd)
  { redirActions := r.2
    execArgv := r.1
    outcome :=
      if execResolvesArgv execOk r.1 then .execed r.1
      else .exited 1 [.perrorMsg ("exec failed")] }

/-- Source translation of the child branch of runCommand for a single
command: run redirection on the already-tokenized arguments, exec; on
exec failure print the error line naming the command, call the
suggestion helper on it, and exit 1. -/
def singleChild (openFn : String → RedirMode → Int) (execOk : String → Bool)
    (args : List String) : ChildRun :=
  let r := redirLoop openFn args
  { redirActions := r.2
    execArgv := r.1
    outcome :=
      if execResolvesArgv execOk r.1 then .execed r.1
      else .exited 1 [.errorNaming (r.1.headD ("")), .suggestCalled (r.1.headD (""))] }

/-! ## runCommand -/

/-- What the parent does with one input line after runCommand picks a
branch: run a pipeline (executePipeline, which waits for every stage),
finish a builtin, exit the shell, finish a job builtin with its
effects, wait for a foreground child, or record a background job. -/
inductive ParentAction
  | pipelineRun (stages : List String)
  | builtinDone
  | exitShell
  | jobControl (evs : List SysEv)
  | fgWaited (pid : Nat) (args : List String)
  | bgStarted (pid : Nat) (jobId : Int)
deriving DecidableEq

/-- The input line after the trailing ampersand, if any, is removed
(the background strip at the top of runCommand). -/
def bgStripped (input : String) : String :=
  if strBack input == '&' then strPopBack input else input

/-- Source translation of runCommand.  childPid stands for the process
identifier fork returns in the parent.  Returns the job table, the next
job id, and the action taken; thrown models an exception escaping the
call (std::stoi on a malformed fg or bg argument). -/
def runCommand (jobs : List Job) (nextJobId : Int) (childPid : Nat) (input : String) :
    CppResult (List Job × Int × ParentAction) :=
  let background := strBack input == '&'
  let stripped := bgStripped input
  let parts := splitByPipe stripped
  if parts.length > 1 then .ok (jobs, nextJobId, .pipelineRun parts)
  else
    let args := tokenize stripped
    match handleBuiltins args with
    | .handled => .ok (jobs, nextJobId, .builtinDone)
    | .exitShell => .ok (jobs, nextJobId, .exitShell)
    | .notBuiltin =>
      match handleJobBuiltins jobs args with
      | .thrown e => .thrown e
      | .ok (some (jobs2, evs)) => .ok (jobs2, nextJobId, .jobControl evs)
      | .ok none =>
        if background then
          .ok (jobs ++ [{ id := nextJobId, pid := childPid, cmdline := stripped, running := true }],
               nextJobId + 1, .bgStarted childPid nextJobId)
        else
          .ok (jobs, nextJobId, .fgWaited childPid args)

/-! ## The command classifier of unified_shell.cpp -/

/-- The three classification outcomes of CommandDetector. -/
inductive CommandMode
  | WINDOWS
  | LINUX
  | AUTO_DETECT
deriving DecidableEq

/-- The static table of WindowsExecutor::isWindowsCommand. -/
def windowsCommands : List String :=
  ["dir", "copy", "move", "del", "md", "rd", "cd", "type", "cls", "echo",
   "set", "path", "prompt", "title", "color", "date", "time", "ver",
   "vol", "tree", "attrib", "comp", "fc", "find", "findstr", "sort",
   "more", "xcopy", "robocopy", "tasklist", "taskkill", "net", "ping",
   "ipconfig", "netstat", "systeminfo", "driverquery", "reg", "sc",
   "powershell", "cmd", "notepad", "calc", "mspaint", "explorer"]

/-- The static table of LinuxExecutor::isLinuxCommand. -/
def linuxCommands : List String :=
  ["ls", "cat", "grep", "awk", "sed", "sort", "uniq", "head", "tail",
   "wc", "cut", "tr", "find", "locate", "which", "whereis", "file",
   "chmod", "chown", "chgrp", "umask", "ln", "cp", "mv", "rm", "mkdir",
   "rmdir", "pwd", "cd", "pushd", "popd", "du", "df", "mount", "umount",
   "ps", "top", "htop", "kill", "killall", "jobs", "fg", "bg", "nohup",
   "screen", "tmux", "man", "info", "less", "more", "nano", "vim", "emacs",
   "tar", "gzip", "gunzip", "zip", "unzip", "curl", "wget", "ssh", "scp",
   "rsync", "ping", "netstat", "ifconfig", "iptables", "systemctl", "service"]

/-- The static table of CommandDetector::isBuiltinCommand. -/
def shellBuiltins : List String :=
  ["help", "exit", "quit", "mode", "config", "status", "history", "clear", "cls"]

def isWindowsCommand (c : String) : Bool := windowsCommands.contains c

def isLinuxCommand (c : String) : Bool := linuxCommands.contains c

def isBuiltinCommand (c : String) : Bool := shellBuiltins.contains c

/-- Source translation of CommandDetector::detectCommandType: builtins
first, then the Windows table, then the Linux table, else
AUTO_DETECT. -/
def detectCommandType (c : String) : CommandMode :=
  if isBuiltinCommand c then .AUTO_DETECT
  else if isWindowsCommand c then .WINDOWS
  else if isLinuxCommand c then .LINUX
  else .AUTO_DETECT

/-! ## Helper lemmas -/

theorem forTrace_mem_all (p : PipeEv → Bool) (f : Nat → List PipeEv)
    (hf : ∀ i, ∀ e ∈ f i, p e = true) :
    ∀ n, ∀ e ∈ forTrace n f, p e = true := by
  intro n
  induction n with
  | zero => intro e he; simp [forTrace] at he
  | succ m ih =>
    intro e he
    simp only [forTrace, List.mem_append] at he
    rcases he with he | he
    · exact ih e he
    · exact hf m e he

theorem forTrace_length (f : Nat → List PipeEv) (hf : ∀ i, (f i).length = 1) :
    ∀ n, (forTrace n f).length = n := by
  intro n
  induction n with
  | zero => rfl
  | succ m ih => simp [forTrace, ih, hf m]

theorem forTrace_filter_length (p : PipeEv → Bool) (f : Nat → List PipeEv) (k : Nat)
    (hf : ∀ i, ((f i).filter p).length = k) :
    ∀ n, ((forTrace n f).filter p).length = n * k := by
  intro n
  induction n with
  | zero => simp [forTrace]
  | succ m ih => simp [forTrace, List.filter_append, ih, hf m, Nat.succ_mul]

theorem countWaits_executePipeline (cmds : List String) :
    countWaits (executePipeline cmds) = cmds.length := by
  have ha := forTrace_filter_length isWaitEv
      (fun i => [.pipeAlloc (2 * i) (2 * i + 1)]) 0 (fun i => rfl) (cmds.length - 1)
  have hb := forTrace_filter_length isWaitEv
      (fun i => [.forkChild i]) 0 (fun i => rfl) cmds.length
  have hc := forTrace_filter_length isWaitEv
      (fun j => [.closeFd j]) 0 (fun i => rfl) (2 * (cmds.length - 1))
  have hd := forTrace_filter_length isWaitEv
      (fun _ => [.waitAny]) 1 (fun i => rfl) cmds.length
  simp [countWaits, executePipeline, List.filter_append, ha, hb, hc, hd]

theorem fgbgLoop_found (jid : Int) (j : Job) :
    ∀ jobs : List Job, findFirstJob jid jobs = some j →
      fgbgLoop true jid jobs
        = some (eraseFirstJob jid jobs, [.killSig j.pid, .waitBlocking j.pid]) := by
  intro jobs
  induction jobs with
  | nil => intro h; simp [findFirstJob] at h
  | cons j0 rest ih =>
    intro h
    by_cases hid : j0.id = jid
    · simp [findFirstJob, hid] at h
      subst h
      simp [fgbgLoop, eraseFirstJob, hid]
    · simp [findFirstJob, hid] at h
      simp [fgbgLoop, eraseFirstJob, hid, ih h]

theorem fgbgLoop_none (b : Bool) (jid : Int) :
    ∀ jobs : List Job, findFirstJob jid jobs = none →
      fgbgLoop b jid jobs = none := by
  intro jobs
  induction jobs with
  | nil => intro _; rfl
  | cons j0 rest ih =>
    intro h
    by_cases hid : j0.id = jid
    · simp [findFirstJob, hid] at h
    · simp [findFirstJob, hid] at h
      simp [fgbgLoop, hid, ih h]

theorem reapOne_fields (jobs : List Job) (p : Nat) (st : ChildStatus) :
    (reapOne jobs p st).map (fun j => (j.id, j.pid, j.cmdline))
      = jobs.map (fun j => (j.id, j.pid, j.cmdline)) := by
  unfold reapOne
  rw [List.map_map]
  apply List.map_congr_left
  intro j _
  by_cases hp : j.pid = p
  · simp only [Function.comp_apply, hp, if_pos rfl]
    cases st <;> rfl
  · simp [hp]

theorem sigchldHandler_fields (events : List (Nat × ChildStatus)) :
    ∀ jobs : List Job,
      (sigchldHandler jobs events).map (fun j => (j.id, j.pid, j.cmdline))
        = jobs.map (fun j => (j.id, j.pid, j.cmdline)) := by
  induction events with
  | nil => intro jobs; rfl
  | cons e es ih =>
    intro jobs
    have h1 : sigchldHandler jobs (e :: es) = sigchldHandler (reapOne jobs e.1 e.2) es := rfl
    rw [h1, ih, reapOne_fields]

theorem reapOne_nomatch (jobs : List Job) (p : Nat) (st : ChildStatus)
    (h : ∀ j ∈ jobs, j.pid ≠ p) : reapOne jobs p st = jobs := by
  unfold reapOne
  conv_rhs => rw [← List.map_id jobs]
  apply List.map_congr_left
  intro j hj
  simp [h j hj]

theorem redirLoop_fst_indep (f g : String → RedirMode → Int) :
    ∀ l, (redirLoop f l).1 = (redirLoop g l).1 := by
  apply redirRec
  · rfl
  · intro x hx
    simp [redirLoop, hx]
  · intro x rest hx ih
    cases rest with
    | nil => simp [redirLoop, hx]
    | cons y rest2 => simp [redirLoop, hx, ih]
  · intro x y rest2 hx ih
    simp [redirLoop, hx, ih]

/-! ## Claims -/

/-- Claim C1, counterexample.  The claim says a background pipeline of
two or more stages records the last stage pid as a job and returns
without waiting.  On the concrete background pipeline input the code
strips the ampersand, runs the pipeline branch with the job table and
job counter unchanged (no job recorded at all), and that branch waits
once per stage (two waits here). -/
theorem C1_counterexample :
    runCommand [] 1 77 ("sleep 5 | cat &") = .ok ([], 1, .pipelineRun ["sleep 5 ", " cat "])
    ∧ countWaits (executePipeline ["sleep 5 ", " cat "]) = 2 := by decide

/-- Claim C1, amended: for every input line whose ampersand-stripped
text splits into two or more pipe stages, runCommand ignores the
background marking: it leaves the job table and the job counter
unchanged, takes the pipeline branch, and that branch performs one
blocking wait per stage. -/
theorem C1_amended_background_pipeline (jobs : List Job) (nextId : Int) (pid : Nat)
    (input : String) (h : 1 < (splitByPipe (bgStripped input)).length) :
    runCommand jobs nextId pid input
      = .ok (jobs, nextId, .pipelineRun (splitByPipe (bgStripped input)))
    ∧ countWaits (executePipeline (splitByPipe (bgStripped input)))
      = (splitByPipe (bgStripped input)).length := by
  constructor
  · simp [runCommand, h]
  · exact countWaits_executePipeline _

/-- Witness for C1_amended_background_pipeline at a concrete background
pipeline input. -/
theorem C1_amended_background_pipeline_witness :
    1 < (splitByPipe (bgStripped ("sleep 5 | cat &"))).length
    ∧ (runCommand [] 1 77 ("sleep 5 | cat &")
        = .ok ([], 1, .pipelineRun (splitByPipe (bgStripped ("sleep 5 | cat &"))))
      ∧ countWaits (executePipeline (splitByPipe (bgStripped ("sleep 5 | cat &"))))
        = (splitByPipe (bgStripped ("sleep 5 | cat &"))).length) :=
  ⟨by decide, C1_amended_background_pipeline [] 1 77 ("sleep 5 | cat &") (by decide)⟩

/-- Claim C2, counterexample.  The claim says the reaper drives a
tri-state machine in which Done is terminal.  In the code the job state
is one bool: after the drain reaps an exited notification and then a
continued notification for the same pid, the job is flagged running
again, while the claimed machine is stuck at Done, and Done is not
Running. -/
theorem C2_counterexample :
    (sigchldHandler [⟨1, 42, "sleep 100", true⟩]
        [(42, .exited), (42, .continued)]).map Job.running = [true]
    ∧ specRun .Running [ChildStatus.exited, ChildStatus.continued] = .Done
    ∧ TriState.Done ≠ TriState.Running := by decide

/-- Claim C2, amended: each reaped status sets the matched jobs
two-state running flag from the status alone (exited, killed and
stopped all give false, conflating Stopped with Done; continued gives
true), independent of the previous state, so no state is terminal. -/
theorem C2_amended_two_state (jobs : List Job) (p : Nat) (st : ChildStatus) :
    reapOne jobs p st
      = jobs.map
          (fun j => if j.pid = p then { j with running := runningAfter st } else j) := by
  unfold reapOne
  apply List.map_congr_left
  intro j _
  by_cases hp : j.pid = p
  · rw [if_pos hp, if_pos hp]
    cases st <;> rfl
  · rw [if_neg hp, if_neg hp]

/-- Claim C3: no error in the execution and job-control core terminates
the shell; the shell ends only at end of input or on an explicit exit.
The code contradicts this: on the input line fg abc, std::stoi raises
std::invalid_argument, no handler catches it, and the shell process is
terminated.  This theorem evaluates the model at the failing input: the
exception escapes runCommand. -/
theorem C3_nonNumericJobId_crash :
    runCommand [] 1 99 ("fg abc") = .thrown .invalidArgument := by decide

/-- Claim C4: for every pipeline of stage count at least two, the
parent trace is exactly the channel allocations (one per channel,
stage count minus one of them, two descriptors each), then exactly one
fork per stage, then the close of every one of the 2 * (N - 1) pipe
descriptors, then exactly N blocking waits, in that order. -/
theorem C4_pipeline_resources (cmds : List String) (h : 2 ≤ cmds.length) :
    ∃ A F C W, executePipeline cmds = A ++ F ++ C ++ W
      ∧ (∀ e ∈ A, isAllocEv e = true) ∧ A.length = cmds.length - 1
      ∧ (∀ e ∈ F, isForkEv e = true) ∧ F.length = cmds.length
      ∧ (∀ e ∈ C, isCloseEv e = true) ∧ C.length = 2 * (cmds.length - 1)
      ∧ (∀ e ∈ W, isWaitEv e = true) ∧ W.length = cmds.length := by
  refine ⟨forTrace (cmds.length - 1) (fun i => [.pipeAlloc (2 * i) (2 * i + 1)]),
      forTrace cmds.length (fun i => [.forkChild i]),
      forTrace (2 * (cmds.length - 1)) (fun j => [.closeFd j]),
      forTrace cmds.length (fun _ => [.waitAny]), rfl, ?_, ?_, ?_, ?_, ?_, ?_, ?_, ?_⟩
  · refine forTrace_mem_all _ _ (fun i e he => ?_) _
    simp at he; subst he; rfl
  · exact forTrace_length (fun i => [.pipeAlloc (2 * i) (2 * i + 1)]) (fun i => rfl) _
  · refine forTrace_mem_all _ _ (fun i e he => ?_) _
    simp at he; subst he; rfl
  · exact forTrace_length (fun i => [.forkChild i]) (fun i => rfl) _
  · refine forTrace_mem_all _ _ (fun i e he => ?_) _
    simp at he; subst he; rfl
  · exact forTrace_length (fun j => [.closeFd j]) (fun i => rfl) _
  · refine forTrace_mem_all _ _ (fun i e he => ?_) _
    simp at he; subst he; rfl
  · exact forTrace_length (fun _ => [.waitAny]) (fun i => rfl) _

/-- Witness for C4_pipeline_resources on a three-stage pipeline. -/
theorem C4_pipeline_resources_witness :
    2 ≤ (["a", "b", "c"] : List String).length
    ∧ (∃ A F C W, executePipeline ["a", "b", "c"] = A ++ F ++ C ++ W
      ∧ (∀ e ∈ A, isAllocEv e = true)
        ∧ A.length = (["a", "b", "c"] : List String).length - 1
      ∧ (∀ e ∈ F, isForkEv e = true)
        ∧ F.length = (["a", "b", "c"] : List String).length
      ∧ (∀ e ∈ C, isCloseEv e = true)
        ∧ C.length = 2 * ((["a", "b", "c"] : List String).length - 1)
      ∧ (∀ e ∈ W, isWaitEv e = true)
        ∧ W.length = (["a", "b", "c"] : List String).length) :=
  ⟨by decide, C4_pipeline_resources ["a", "b", "c"] (by decide)⟩

/-- Claim C5, counterexample.  The claim says the two classifier tables
are disjoint and each table maps to its own mode.  In the code the
tables share cd (among others); sort is in the Linux table yet
classifies WINDOWS because the Windows table is checked first; cls is
in the Windows table yet classifies AUTO_DETECT because the builtin
table is checked before either. -/
theorem C5_counterexample :
    isWindowsCommand ("cd") = true ∧ isLinuxCommand ("cd") = true
    ∧ isLinuxCommand ("sort") = true ∧ detectCommandType ("sort") = .WINDOWS
    ∧ isWindowsCommand ("cls") = true ∧ detectCommandType ("cls") = .AUTO_DETECT := by decide

/-- Claim C5, amended: the two tables overlap; classification checks
the builtin set first (giving AUTO_DETECT), then the Windows table,
then the Linux table, and names in none of the three give
AUTO_DETECT. -/
theorem C5_amended_classifier (c : String) :
    (isBuiltinCommand c = true → detectCommandType c = .AUTO_DETECT)
    ∧ (isBuiltinCommand c = false → isWindowsCommand c = true →
        detectCommandType c = .WINDOWS)
    ∧ (isBuiltinCommand c = false → isWindowsCommand c = false →
        isLinuxCommand c = true → detectCommandType c = .LINUX)
    ∧ (isBuiltinCommand c = false → isWindowsCommand c = false →
        isLinuxCommand c = false → detectCommandType c = .AUTO_DETECT) := by
  refine ⟨?_, ?_, ?_, ?_⟩
  · intro h1; simp [detectCommandType, h1]
  · intro h1 h2; simp [detectCommandType, h1, h2]
  · intro h1 h2 h3; simp [detectCommandType, h1, h2, h3]
  · intro h1 h2 h3; simp [detectCommandType, h1, h2, h3]

/-- Witness for C5_amended_classifier at a name only in the Linux
table. -/
theorem C5_amended_classifier_witness :
    isBuiltinCommand ("grep") = false ∧ isWindowsCommand ("grep") = false
    ∧ isLinuxCommand ("grep") = true ∧ detectCommandType ("grep") = .LINUX :=
  ⟨by decide, by decide, by decide,
    (C5_amended_classifier ("grep")).2.2.1 (by decide) (by decide) (by decide)⟩

/-- Claim C6: with a numeric argument, fg on a job id present in the
table sends SIGCONT to the pid of the first matching job, performs a
blocking wait on that pid, and removes that job from the table; on an
absent job id both fg and bg report job-not-found and leave the table
unchanged. -/
theorem C6_foreground_jobNotFound (jobs : List Job) (s : String) (jid : Int)
    (hs : stoi s = some jid) :
    (∀ j, findFirstJob jid jobs = some j →
        handleJobBuiltins jobs ["fg", s]
          = .ok (some (eraseFirstJob jid jobs, [.killSig j.pid, .waitBlocking j.pid])))
    ∧ (findFirstJob jid jobs = none →
        handleJobBuiltins jobs ["fg", s]
            = .ok (some (jobs, [.printedNotFound ("fg") jid]))
        ∧ handleJobBuiltins jobs ["bg", s]
            = .ok (some (jobs, [.printedNotFound ("bg") jid]))) := by
  constructor
  · intro j hj
    have h1 := fgbgLoop_found jid j jobs hj
    simp [handleJobBuiltins, hs, h1]
  · intro hn
    have h1 := fgbgLoop_none true jid jobs hn
    have h2 := fgbgLoop_none false jid jobs hn
    constructor
    · simp [handleJobBuiltins, hs, h1]
    · simp [handleJobBuiltins, hs, h2]

/-- Witness for C6_foreground_jobNotFound: fg 1 on a two-job table
continues and waits on the matching pid and erases that job. -/
theorem C6_foreground_jobNotFound_witness :
    stoi ("1") = some 1
    ∧ handleJobBuiltins [⟨1, 42, "sleep 100", true⟩, ⟨2, 43, "top", false⟩] ["fg", "1"]
        = .ok (some ([⟨2, 43, "top", false⟩], [.killSig 42, .waitBlocking 42])) := by
  refine ⟨by decide, ?_⟩
  have h := (C6_foreground_jobNotFound [⟨1, 42, "sleep 100", true⟩, ⟨2, 43, "top", false⟩]
      ("1") 1 (by decide)).1 ⟨1, 42, "sleep 100", true⟩ (by decide)
  exact h.trans (by decide)

/-- Claim C7, counterexample.  The claim says a stage whose redirection
target cannot be opened reports a redirection error and aborts before
exec.  On a concrete stage whose open fails (descriptor -1), the child
makes the dup2 and close calls on the failed descriptor, reports
nothing, and still execs the program. -/
theorem C7_counterexample :
    pipelineChild (fun _ _ => -1) (fun _ => true) ("cat < missing.txt")
      = ⟨[.openCall ("missing.txt") .readMode (-1), .dup2Call (-1) 0, .closeCall (-1)],
         ["cat"], .execed ["cat"]⟩ := by decide

/-- Claim C7, amended: open failure is silently ignored.  The argument
list that reaches exec and the child outcome are independent of what
the open calls return, so a stage with an unopenable target reports no
error, aborts nothing, and execs exactly as if the open had
succeeded. -/
theorem C7_amended_openFailureIgnored (f g : String → RedirMode → Int)
    (execOk : String → Bool) (cmd : String) :
    (redirLoop f (tokenize cmd)).1 = (redirLoop g (tokenize cmd)).1
    ∧ (pipelineChild f execOk cmd).outcome = (pipelineChild g execOk cmd).outcome
    ∧ (pipelineChild f execOk cmd).execArgv = (pipelineChild g execOk cmd).execArgv := by
  have h := redirLoop_fst_indep f g (tokenize cmd)
  refine ⟨h, ?_, ?_⟩ <;> simp [pipelineChild, h]

/-- Claim C8, counterexample.  The claim says every pipeline stage
whose exec fails emits a diagnostic naming the unresolved command and a
typo suggestion.  A concrete failing pipeline stage prints only the
fixed perror text: its diagnostics name no command and contain no
suggestion call. -/
theorem C8_counterexample :
    childDiags (pipelineChild (fun _ _ => -1) (fun _ => false) ("qcat notes.txt")).outcome
      = [.perrorMsg ("exec failed")]
    ∧ Diag.errorNaming ("qcat") ∉
        childDiags (pipelineChild (fun _ _ => -1) (fun _ => false) ("qcat notes.txt")).outcome
    ∧ Diag.suggestCalled ("qcat") ∉
        childDiags
          (pipelineChild (fun _ _ => -1) (fun _ => false) ("qcat notes.txt")).outcome := by
  decide

/-- Claim C8, amended: a pipeline stage whose exec fails prints only
the fixed perror text and exits with status 1, never returning; the
single-command child is the path that names the unresolved command and
calls the suggestion helper before exiting 1. -/
theorem C8_amended_pipelineDiag (openFn : String → RedirMode → Int) (execOk : String → Bool)
    (cmd : String) (prog : String) (rest : List String)
    (hp : (redirLoop openFn (tokenize cmd)).1 = prog :: rest)
    (hex : execOk prog = false) :
    (pipelineChild openFn execOk cmd).outcome = .exited 1 [.perrorMsg ("exec failed")]
    ∧ (singleChild openFn execOk (tokenize cmd)).outcome
        = .exited 1 [.errorNaming prog, .suggestCalled prog] := by
  constructor <;> simp [pipelineChild, singleChild, execResolvesArgv, hp, hex]

/-- Witness for C8_amended_pipelineDiag at a concrete unresolvable
command. -/
theorem C8_amended_pipelineDiag_witness :
    (redirLoop (fun _ _ => (-1 : Int)) (tokenize ("qcat notes.txt"))).1
        = "qcat" :: ["notes.txt"]
    ∧ ((pipelineChild (fun _ _ => (-1 : Int)) (fun _ => false) ("qcat notes.txt")).outcome
          = .exited 1 [.perrorMsg ("exec failed")]
      ∧ (singleChild (fun _ _ => (-1 : Int)) (fun _ => false)
            (tokenize ("qcat notes.txt"))).outcome
          = .exited 1 [.errorNaming ("qcat"), .suggestCalled ("qcat")]) :=
  ⟨by decide,
    C8_amended_pipelineDiag (fun _ _ => (-1 : Int)) (fun _ => false) ("qcat notes.txt")
      ("qcat") ["notes.txt"] (by decide) rfl⟩

/-- Claim C9: the reap handler never inserts or removes job entries
and never changes an id, pid or command line (the identifying fields of
the drained table equal those of the input table, in order), and a
reaped pid matching no job leaves the table entirely unchanged. -/
theorem C9_reaper_frame (jobs : List Job) (events : List (Nat × ChildStatus)) :
    ((sigchldHandler jobs events).map (fun j => (j.id, j.pid, j.cmdline))
        = jobs.map (fun j => (j.id, j.pid, j.cmdline)))
    ∧ (∀ p st, (∀ j ∈ jobs, j.pid ≠ p) → reapOne jobs p st = jobs) :=
  ⟨sigchldHandler_fields events jobs, fun p st h => reapOne_nomatch jobs p st h⟩

/-- Witness for C9_reaper_frame: a reap event for an unknown pid leaves
a one-job table unchanged. -/
theorem C9_reaper_frame_witness :
    ((sigchldHandler [⟨1, 5, "sleep 30", true⟩] [(9, .exited)]).map
        (fun j => (j.id, j.pid, j.cmdline)) = [((1 : Int), 5, "sleep 30")])
    ∧ reapOne [⟨1, 5, "sleep 30", true⟩] 9 .exited = [⟨1, 5, "sleep 30", true⟩] := by
  have h := C9_reaper_frame [⟨1, 5, "sleep 30", true⟩] [(9, .exited)]
  exact ⟨h.1.trans (by decide), h.2 9 .exited (by decide)⟩

/-- Claim C10, counterexample.  The claim says every argument list
whose last token is a redirection operator with nothing after it keeps
that operator in the list with no redirection performed for it.  In the
concrete list cat, then the read operator, then the greater-than token,
the final operator token is consumed as the open path of the preceding
read operator and erased from the list, so it never reaches exec as an
argument. -/
theorem C10_counterexample :
    redirLoop (fun _ _ => -1) ["cat", "<", ">"]
      = (["cat"],
         [.openCall (">") .readMode (-1), .dup2Call (-1) 0, .closeCall (-1)]) := by decide

/-- Claim C10, amended: if no earlier token is itself a redirection
operator (so the trailing operator cannot be consumed as a path), a
trailing redirection operator triggers no descriptor call at all, no
error, and the whole argument list, trailing operator included, is
passed through unchanged to exec. -/
theorem C10_amended_trailingOp (openFn : String → RedirMode → Int)
    (front : List String) (op : String)
    (hop : isRedirOp op = true) (hfront : ∀ t ∈ front, isRedirOp t = false) :
    redirLoop openFn (front ++ [op]) = (front ++ [op], []) := by
  induction front with
  | nil => simp [redirLoop, hop]
  | cons t ft ih =>
    have ht : isRedirOp t = false := hfront t (by simp)
    have ih2 := ih (fun u hu => hfront u (List.mem_cons_of_mem _ hu))
    cases ft with
    | nil => simp [redirLoop, ht, hop]
    | cons t2 ft2 =>
      simp only [List.cons_append] at ih2 ⊢
      simp [redirLoop, ht, ih2]

/-- Witness for C10_amended_trailingOp: echo hi followed by a bare
output operator is passed through untouched. -/
theorem C10_amended_trailingOp_witness :
    isRedirOp (">") = true
    ∧ (∀ t ∈ (["echo", "hi"] : List String), isRedirOp t = false)
    ∧ redirLoop (fun _ _ => -1) (["echo", "hi"] ++ [">"]) = (["echo", "hi"] ++ [">"], []) :=
  ⟨by decide, by decide,
    C10_amended_trailingOp (fun _ _ => -1) ["echo", "hi"] (">") (by decide) (by decide)⟩

end CustomShell
